import Mathlib

/-!
Verification of the AI review service (`service1/ai-service/main.py`) and the
SSE proxy (`service1/ui-service/main.py`).

The Python code is shallowly embedded: JSON values become the inductive
`JValue`; `json.loads` becomes a whole-input parser over `List Char`;
Python truthiness, `or`-chains, `dict.get`, `int(...)`, `str(...)` and
`json.dumps` become the `py...` helpers; code that can raise becomes
`Except String`; the network is an oracle parameter (`HttpOutcome`,
`PollResp`, `DeliveryOutcome`).

Known deliberate restrictions of the embedding (none affect the theorems
below): JSON numeric literals are modelled as integers only (inputs with
float literals make the modelled parse fail where CPython would succeed);
string handling is ASCII-faithful (`.lower()`, `.strip()`, `json.dumps`
escaping of non-ASCII is not modelled); `int(...)` does not accept digit
group underscores.
-/

/-- JSON values as produced by `json.loads`. Object fields keep source order;
lookups mirror CPython dicts by taking the last duplicate of a key. -/
inductive JValue where
  | null
  | bool (b : Bool)
  | num (n : Int)
  | str (s : String)
  | arr (elems : List JValue)
  | obj (fields : List (String × JValue))

/-- Numeric value of a list of decimal digit characters. -/
def natOfDigits (ds : List Char) : Nat :=
  ds.foldl (fun a c => a * 10 + (c.toNat - 48)) 0

/-- Skip JSON whitespace (space, tab, newline, carriage return). -/
def skipWs : List Char → List Char
  | [] => []
  | c :: rest =>
    if c == ' ' || c == '\t' || c == '\n' || c == '\r' then skipWs rest
    else c :: rest

/-- Parse a JSON natural-number literal (`0`, or a nonzero digit then digits). -/
def parseNat (l : List Char) : Option (Nat × List Char) :=
  match l with
  | [] => none
  | c :: rest =>
    if c == '0' then some (0, rest)
    else if c.isDigit then
      some (natOfDigits ((c :: rest).takeWhile Char.isDigit),
            (c :: rest).dropWhile Char.isDigit)
    else none

/-- Parse a JSON integer literal with optional leading minus. -/
def parseNum (l : List Char) : Option (Int × List Char) :=
  match l with
  | '-' :: rest => (parseNat rest).map (fun p => (-(p.1 : Int), p.2))
  | _ => (parseNat l).map (fun p => ((p.1 : Int), p.2))

/-- Value of one hexadecimal digit character. -/
def hexVal (c : Char) : Option Nat :=
  if c.isDigit then some (c.toNat - 48)
  else if 97 ≤ c.toNat ∧ c.toNat ≤ 102 then some (c.toNat - 87)
  else if 65 ≤ c.toNat ∧ c.toNat ≤ 70 then some (c.toNat - 55)
  else none

/-- Decode one JSON string escape (the character after a backslash). -/
def escChar (e : Char) (rest : List Char) : Option (Char × List Char) :=
  if e == '"' then some ('"', rest)
  else if e == '\\' then some ('\\', rest)
  else if e == '/' then some ('/', rest)
  else if e == 'b' then some (Char.ofNat 8, rest)
  else if e == 'f' then some (Char.ofNat 12, rest)
  else if e == 'n' then some ('\n', rest)
  else if e == 'r' then some ('\r', rest)
  else if e == 't' then some ('\t', rest)
  else if e == 'u' then
    match rest with
    | a :: b :: c :: d :: r =>
      match hexVal a, hexVal b, hexVal c, hexVal d with
      | some x, some y, some z, some w =>
        some (Char.ofNat (((x * 16 + y) * 16 + z) * 16 + w), r)
      | _, _, _, _ => none
    | _ => none
  else none

/-- Parse the body of a JSON string after the opening quote, fuelled. -/
def parseStringBodyF : Nat → List Char → Option (List Char × List Char)
  | 0, _ => none
  | n + 1, l =>
    match l with
    | [] => none
    | '"' :: rest => some ([], rest)
    | '\\' :: rest =>
      match rest with
      | [] => none
      | e :: rest2 =>
        match escChar e rest2 with
        | some (c, r) => (parseStringBodyF n r).map (fun p => (c :: p.1, p.2))
        | none => none
    | c :: rest =>
      if c.toNat < 32 then none
      else (parseStringBodyF n rest).map (fun p => (c :: p.1, p.2))

mutual

/-- Parse one JSON value, fuelled; returns the value and the unconsumed rest. -/
def parseValueF : Nat → List Char → Option (JValue × List Char)
  | 0, _ => none
  | n + 1, l =>
    match skipWs l with
    | [] => none
    | c :: rest =>
      if c == '\x7b' then
        match skipWs rest with
        | '\x7d' :: r2 => some (JValue.obj [], r2)
        | r2 => parseObjF n r2
      else if c == '[' then
        match skipWs rest with
        | ']' :: r2 => some (JValue.arr [], r2)
        | r2 => parseArrF n r2
      else if c == '"' then
        (parseStringBodyF (n + 1) rest).map (fun p => (JValue.str (String.mk p.1), p.2))
      else if c == 't' then
        match rest with
        | 'r' :: 'u' :: 'e' :: r => some (JValue.bool true, r)
        | _ => none
      else if c == 'f' then
        match rest with
        | 'a' :: 'l' :: 's' :: 'e' :: r => some (JValue.bool false, r)
        | _ => none
      else if c == 'n' then
        match rest with
        | 'u' :: 'l' :: 'l' :: r => some (JValue.null, r)
        | _ => none
      else
        (parseNum (c :: rest)).map (fun p => (JValue.num p.1, p.2))

/-- Parse the items of a nonempty JSON array (after the opening bracket). -/
def parseArrF : Nat → List Char → Option (JValue × List Char)
  | 0, _ => none
  | n + 1, l =>
    match parseValueF n l with
    | none => none
    | some (v, r) =>
      match skipWs r with
      | ',' :: r2 =>
        match parseArrF n r2 with
        | some (JValue.arr vs, r3) => some (JValue.arr (v :: vs), r3)
        | _ => none
      | ']' :: r2 => some (JValue.arr [v], r2)
      | _ => none

/-- Parse the fields of a nonempty JSON object (after the opening brace). -/
def parseObjF : Nat → List Char → Option (JValue × List Char)
  | 0, _ => none
  | n + 1, l =>
    match skipWs l with
    | '"' :: r1 =>
      match parseStringBodyF (n + 1) r1 with
      | none => none
      | some (kcs, r2) =>
        match skipWs r2 with
        | ':' :: r3 =>
          match parseValueF n r3 with
          | none => none
          | some (v, r4) =>
            match skipWs r4 with
            | ',' :: r5 =>
              match parseObjF n r5 with
              | some (JValue.obj kvs, r6) => some (JValue.obj ((String.mk kcs, v) :: kvs), r6)
              | _ => none
            | '\x7d' :: r5 => some (JValue.obj [(String.mk kcs, v)], r5)
            | _ => none
        | _ => none
    | _ => none

end

/-- Model of `json.loads`: whole-input parse, `none` when CPython would raise
`JSONDecodeError`. The fuel bounds parser recursion depth and is always
sufficient (each nesting level consumes input). -/
def pyLoads (s : String) : Option JValue :=
  match parseValueF (2 * s.data.length + 8) s.data with
  | some (v, rest) =>
    match skipWs rest with
    | [] => some v
    | _ => none
  | none => none

/-- Model of Python `str.strip()` for ASCII whitespace. -/
def pyStrip (s : String) : String :=
  let ws := fun (c : Char) => c == ' ' || c == '\t' || c == '\n' || c == '\r'
    || c == '\x0b' || c == '\x0c'
  String.mk (((s.data.dropWhile ws).reverse.dropWhile ws).reverse)

/-- Model of Python `str.lower()` for ASCII letters. -/
def pyLower (s : String) : String :=
  String.mk (s.data.map (fun c =>
    if 65 ≤ c.toNat ∧ c.toNat ≤ 90 then Char.ofNat (c.toNat + 32) else c))

/-- Model of Python `dict.get` over the parsed fields: the value stored for a
key is the last occurrence in the JSON source, `None` (here `none`) if absent. -/
def jget (kvs : List (String × JValue)) (k : String) : Option JValue :=
  (kvs.reverse.find? (fun p => p.1 == k)).map (fun p => p.2)

/-- Like `jget` but with Python `None` represented as `JValue.null`. -/
def jgetD (kvs : List (String × JValue)) (k : String) : JValue :=
  (jget kvs k).getD JValue.null

/-- Python truthiness of a JSON value. -/
def pyTruthy : JValue → Bool
  | JValue.null => false
  | JValue.bool b => b
  | JValue.num n => !(n == 0)
  | JValue.str s => !(s == "")
  | JValue.arr xs => !xs.isEmpty
  | JValue.obj kvs => !kvs.isEmpty

/-- Python `a or b` over JSON values. -/
def pyOr (a b : JValue) : JValue := if pyTruthy a then a else b

/-- Model of Python `int(str)`: strip whitespace, optional sign, digits. -/
def pyIntOfStr (s : String) : Option Int :=
  match (pyStrip s).data with
  | '-' :: ds =>
    if ds ≠ [] ∧ ds.all Char.isDigit then some (-(natOfDigits ds : Int)) else none
  | '+' :: ds =>
    if ds ≠ [] ∧ ds.all Char.isDigit then some ((natOfDigits ds : Int)) else none
  | ds =>
    if ds ≠ [] ∧ ds.all Char.isDigit then some ((natOfDigits ds : Int)) else none

/-- Model of Python `int(x)` on a JSON value; `none` when `int()` raises. -/
def pyInt : JValue → Option Int
  | JValue.num n => some n
  | JValue.bool b => some (if b then 1 else 0)
  | JValue.str s => pyIntOfStr s
  | _ => none

mutual

/-- Model of Python `repr` for JSON values (string escaping inside `repr` is
elided; the evaluated inputs contain no quotes or control characters). -/
def pyRepr : JValue → String
  | JValue.null => "None"
  | JValue.bool b => if b then "True" else "False"
  | JValue.num n => toString n
  | JValue.str s => "'" ++ s ++ "'"
  | JValue.arr xs => "[" ++ pyReprItems xs ++ "]"
  | JValue.obj kvs => "\x7b" ++ pyReprFields kvs ++ "\x7d"

/-- Comma-separated `repr`s of list items. -/
def pyReprItems : List JValue → String
  | [] => ""
  | [x] => pyRepr x
  | x :: y :: rest => pyRepr x ++ ", " ++ pyReprItems (y :: rest)

/-- Comma-separated `'key': repr(value)` renderings of dict fields. -/
def pyReprFields : List (String × JValue) → String
  | [] => ""
  | [(k, v)] => "'" ++ k ++ "': " ++ pyRepr v
  | (k, v) :: y :: rest => "'" ++ k ++ "': " ++ pyRepr v ++ ", " ++ pyReprFields (y :: rest)

end

/-- Model of Python `str(x)` on a JSON value. -/
def pyStrF : JValue → String
  | JValue.str s => s
  | v => pyRepr v

/-- Hexadecimal digit character for `\u00XX` escapes. -/
def hexDigitChar (n : Nat) : Char :=
  "0123456789abcdef".data.getD n '0'

/-- Escape one character as `json.dumps` does (ASCII inputs). -/
def escOne (c : Char) : String :=
  if c == '"' then "\\\""
  else if c == '\\' then "\\\\"
  else if c == '\n' then "\\n"
  else if c == '\r' then "\\r"
  else if c == '\t' then "\\t"
  else if c == Char.ofNat 8 then "\\b"
  else if c == Char.ofNat 12 then "\\f"
  else if c.toNat < 32 then
    "\\u00" ++ String.mk [hexDigitChar (c.toNat / 16), hexDigitChar (c.toNat % 16)]
  else String.mk [c]

/-- String-content escaping of `json.dumps`. -/
def jsonEscape (s : String) : String :=
  s.data.foldl (fun acc c => acc ++ escOne c) ""

mutual

/-- Model of `json.dumps` with its default `", "` and `": "` separators. -/
def dumps : JValue → String
  | JValue.null => "null"
  | JValue.bool b => if b then "true" else "false"
  | JValue.num n => toString n
  | JValue.str s => "\"" ++ jsonEscape s ++ "\""
  | JValue.arr xs => "[" ++ dumpsItems xs ++ "]"
  | JValue.obj kvs => "\x7b" ++ dumpsFields kvs ++ "\x7d"

/-- Comma-separated dumps of array items. -/
def dumpsItems : List JValue → String
  | [] => ""
  | [x] => dumps x
  | x :: y :: rest => dumps x ++ ", " ++ dumpsItems (y :: rest)

/-- Comma-separated `"key": value` dumps of object fields. -/
def dumpsFields : List (String × JValue) → String
  | [] => ""
  | [(k, v)] => "\"" ++ jsonEscape k ++ "\": " ++ dumps v
  | (k, v) :: y :: rest =>
    "\"" ++ jsonEscape k ++ "\": " ++ dumps v ++ ", " ++ dumpsFields (y :: rest)

end

/-- The fields of a parse result when it is a JSON object, else `none`
(`isinstance(parsed, dict)` guard of `ask_llama`). -/
def jsonDictOf : Option JValue → Option (List (String × JValue))
  | some (JValue.obj kvs) => some kvs
  | _ => none

/-- First strategy of the response interpreter (main.py lines 100-108): parse
the whole text as JSON; when it is a dict, `score = int(get "score" or
get "Score" or 0)` clamped to [0,100] and `feedback = str(get "feedback" or
get "Feedback" or "")`. `none` when CPython would fall through to the regex
fallback (parse failure, non-dict result, or `int()` raising). -/
def step1 (text : String) : Option (Int × String) :=
  match jsonDictOf (pyLoads text) with
  | none => none
  | some kvs =>
    match pyInt (pyOr (pyOr (jgetD kvs "score") (jgetD kvs "Score")) (JValue.num 0)) with
    | none => none
    | some s =>
      some (max 0 (min 100 s),
            pyStrF (pyOr (pyOr (jgetD kvs "feedback") (jgetD kvs "Feedback")) (JValue.str "")))

/-- Maximal runs of decimal digits of a character list, in order, fuelled. -/
def digitRunsF : Nat → List Char → List (List Char)
  | 0, _ => []
  | _ + 1, [] => []
  | n + 1, c :: rest =>
    if c.isDigit then
      ((c :: rest).takeWhile Char.isDigit) :: digitRunsF n ((c :: rest).dropWhile Char.isDigit)
    else digitRunsF n rest

/-- Maximal digit runs of a string. -/
def digitRuns (s : String) : List (List Char) :=
  digitRunsF s.data.length s.data

/-- Model of `re.search(r"(?<!\d)(\d\x7b1,3\x7d)(?!\d)", text)` (main.py line
111): the leftmost match is the first maximal digit run of length at most 3
(runs of 4 or more digits admit no match position at all). -/
def firstInt13 (s : String) : Option Nat :=
  ((digitRuns s).find? (fun r => decide (r.length ≤ 3))).map natOfDigits

/-- The response interpreter of `ask_llama` (main.py lines 99-123): JSON dict
strategy, then the 1-3 digit regex fallback with the stripped text as
feedback, and `ValueError` when no integer is found. -/
def interpret (text : String) : Except String (Int × String) :=
  match step1 text with
  | some r => Except.ok r
  | none =>
    match firstInt13 text with
    | some v => Except.ok (max 0 (min 100 (v : Int)), pyStrip text)
    | none => Except.error "No integer score found in Ollama response"

/-- Scan a key list for the first field whose value is a nonblank string
(main.py lines 75-79: `isinstance(val, str) and val.strip()`). -/
def firstKeyHit (kvs : List (String × JValue)) : List String → Option String
  | [] => none
  | k :: ks =>
    match jgetD kvs k with
    | JValue.str s => if pyStrip s = "" then firstKeyHit kvs ks else some s
    | _ => firstKeyHit kvs ks

/-- Scan of `results[0]`/`choices[0]` fields (main.py lines 85-94): a nonblank
string wins; a dict is probed at `"text" or "content"`; otherwise continue. -/
def nestedKeyHit (fkvs : List (String × JValue)) : List String → Option String
  | [] => none
  | k :: ks =>
    match jgetD fkvs k with
    | JValue.str s => if pyStrip s = "" then nestedKeyHit fkvs ks else some s
    | JValue.obj sub =>
      match pyOr (jgetD sub "text") (jgetD sub "content") with
      | JValue.str s2 => if pyStrip s2 = "" then nestedKeyHit fkvs ks else some s2
      | _ => nestedKeyHit fkvs ks
    | _ => nestedKeyHit fkvs ks

/-- Envelope extraction of `ask_llama` (main.py lines 72-97): the text handed
to the response interpreter, `json.dumps(data)` when nothing matches. -/
def extractText (data : JValue) : String :=
  match data with
  | JValue.obj kvs =>
    match firstKeyHit kvs ["output", "generated_text", "text", "result", "message"] with
    | some t => t
    | none =>
      match pyOr (jgetD kvs "results") (jgetD kvs "choices") with
      | JValue.arr (first :: _) =>
        match first with
        | JValue.obj fkvs =>
          match nestedKeyHit fkvs ["content", "text", "message", "output"] with
          | some t => t
          | none => dumps data
        | _ => dumps data
      | _ => dumps data
  | _ => dumps data

/-- Outcome of the `httpx` POST inside `ask_llama`: a raised exception
(connect error or timeout) or a response with status code and body text. -/
inductive HttpOutcome where
  | exc (msg : String)
  | resp (status : Nat) (body : String)

/-- The scoring client `ask_llama` (main.py lines 45-123). The question and
answer only shape the prompt and cannot affect the returned value, so the
network is the oracle: readiness gate first (`RuntimeError`), then the raised
exception, `raise_for_status` (4xx/5xx), `resp.json()` (raises on unparseable
bodies), envelope extraction, and the response interpreter. -/
def ask_llama (ready : Bool) (h : HttpOutcome) : Except String (Int × String) :=
  if !ready then Except.error "Ollama model not ready"
  else
    match h with
    | HttpOutcome.exc m => Except.error m
    | HttpOutcome.resp status body =>
      if 400 ≤ status then Except.error "HTTPStatusError"
      else
        match pyLoads body with
        | none => Except.error "JSONDecodeError"
        | some data => interpret (extractText data)

/-- Does a character list start with the given pattern. -/
def leadsWith : List Char → List Char → Bool
  | [], _ => true
  | _ :: _, [] => false
  | a :: as, b :: bs => a == b && leadsWith as bs

/-- Does the pattern occur anywhere in the haystack. -/
def subAt (needle : List Char) : List Char → Bool
  | [] => leadsWith needle []
  | c :: rest => leadsWith needle (c :: rest) || subAt needle rest

/-- Python `needle in hay` on strings. -/
def strContains (hay needle : String) : Bool := subAt needle.data hay.data

/-- The keyword fallback scorer (main.py lines 38-42). Python is dynamically
typed, so the argument is the JSON value extracted from the event:
`(answer_text or "").lower()` raises `AttributeError` when the value is
truthy and not a string. -/
def keyword_score (answer_text : JValue) : Except String Int :=
  match pyOr answer_text (JValue.str "") with
  | JValue.str s =>
    let text := pyLower s
    Except.ok (if strContains text "tourniquet" || strContains text "pressure" then 100 else 0)
  | _ => Except.error "AttributeError: lower"

/-- Gateway base URL (main.py line 24, default of the `GATEWAY_URL` env var). -/
def GATEWAY_URL : String := "http://api-gateway"

/-- Python `str.rstrip("/")`. -/
def rstripSlash (s : String) : String :=
  String.mk ((s.data.reverse.dropWhile (fun c => c == '/')).reverse)

/-- The per-submission review URL (main.py line 151). -/
def reviewUrl (sid : JValue) : String :=
  rstripSlash GATEWAY_URL ++ "/tactical/quiz/" ++ pyStrF sid ++ "/review"

/-- The `AnswerText or answerText or Answer or ""` chain (main.py line 134). -/
def answerVal (kvs : List (String × JValue)) : JValue :=
  pyOr (pyOr (pyOr (jgetD kvs "AnswerText") (jgetD kvs "answerText")) (jgetD kvs "Answer"))
    (JValue.str "")

/-- Outcome of the delivery POST to the gateway (main.py lines 152-157). -/
inductive DeliveryOutcome where
  | exc (msg : String)
  | status (code : Nat)

/-- Observable outcome of one run of the handler body: the ScoreResult it
computed (`none` when the message was dropped), the URLs it POSTed to, and
whether a delivery failure was logged. -/
structure HandlerResult where
  scored : Option (Int × String)
  posts : List String
  deliveryFailLogged : Bool
deriving DecidableEq

/-- The `try: score, feedback = await ask_llama(...) except:` fallback
(main.py lines 139-144): any exception from `ask_llama` is caught and the
keyword heuristic supplies the result with its fixed feedback strings; an
exception raised by `keyword_score` itself occurs inside the `except` block
and escapes. -/
def scoreOf (kvs : List (String × JValue)) (ready : Bool) (h : HttpOutcome) :
    Except String (Int × String) :=
  match ask_llama ready h with
  | Except.ok sf => Except.ok sf
  | Except.error _ =>
    match keyword_score (answerVal kvs) with
    | Except.ok s =>
      Except.ok (s, if s > 0 then "Keywords matched" else "No keywords matched")
    | Except.error e => Except.error e

/-- The body of `process_message` inside `async with message.process()`
(main.py lines 128-157). `payload?` is the outcome of
`json.loads(message.body.decode())` (`none` when it raised and the handler
logged and returned). An `Except.error` is an exception escaping the body:
`payload.get` on a non-dict payload (`AttributeError`), or `keyword_score`
raising inside the fallback `except` block. The delivery POST is wrapped in
`try/except` in the source and never escapes. -/
def handlerBody (payload? : Option JValue) (ready : Bool) (h : HttpOutcome)
    (del : DeliveryOutcome) : Except String HandlerResult :=
  match payload? with
  | none => Except.ok ⟨none, [], false⟩
  | some payload =>
    match payload with
    | JValue.obj kvs =>
      let sid := pyOr (jgetD kvs "Id") (jgetD kvs "id")
      match scoreOf kvs ready h with
      | Except.error e => Except.error e
      | Except.ok (score, feedback) =>
        if pyTruthy sid then
          match del with
          | DeliveryOutcome.exc _ => Except.ok ⟨some (score, feedback), [reviewUrl sid], true⟩
          | DeliveryOutcome.status c =>
            Except.ok ⟨some (score, feedback), [reviewUrl sid], decide (300 ≤ c)⟩
        else Except.ok ⟨some (score, feedback), [], false⟩
    | _ => Except.error "AttributeError: get"

/-- Broker-visible trace of one `process_message` call: `message.process()`
acknowledges on clean exit of the body and rejects (and re-raises) when an
exception escapes it. -/
structure MsgTrace where
  acks : Nat
  rejected : Bool
  raised : Bool
  result : Option HandlerResult
deriving DecidableEq

/-- The message handler `process_message` (main.py lines 126-157). -/
def process_message (payload? : Option JValue) (ready : Bool) (h : HttpOutcome)
    (del : DeliveryOutcome) : MsgTrace :=
  match handlerBody payload? ready h del with
  | Except.ok r => ⟨1, false, false, some r⟩
  | Except.error _ => ⟨0, true, true, none⟩

/-- One run of the `start_consumer` retry loop (main.py lines 160-187) over a
list of connection outcomes (`true` = connect, declare, bind and consume all
succeeded). On failure the code does `attempt += 1; wait = min(30, 2 **
attempt); sleep(wait)`. On success it parks on `asyncio.Event().wait()`
forever, so the run ends and later outcomes are never consumed; nothing
resets `attempt`. Returns the emitted wait durations and the final value of
`attempt`. -/
def consumerRun : List Bool → Nat → List Nat × Nat
  | [], a => ([], a)
  | ok :: rest, a =>
    if ok then ([], a)
    else
      let p := consumerRun rest (a + 1)
      (min 30 (2 ^ (a + 1)) :: p.1, p.2)

/-- `start_consumer` starts with `attempt = 0` (main.py line 162). -/
def start_consumer (outcomes : List Bool) : List Nat × Nat :=
  consumerRun outcomes 0

/-- One poll of the model watcher: a raised request exception, or an HTTP
response with its status and the result of `r.json()` (`none` when that
raised and the code set `data = None`). -/
inductive PollResp where
  | err (msg : String)
  | resp (status : Nat) (body : Option JValue)

/-- Name collection of the watcher (main.py lines 240-255): a top-level list
contributes its string items and the truthy `name` field of its dict items; a
top-level dict contributes the same from each of its `models`, `results` and
`items` lists (all three are scanned, there is no break). -/
def namesOfList (items : List JValue) : List JValue :=
  items.foldl (fun acc it =>
    match it with
    | JValue.str _ => acc ++ [it]
    | JValue.obj kvs =>
      let nm := jgetD kvs "name"
      if pyTruthy nm then acc ++ [nm] else acc
    | _ => acc) []

/-- Names extracted from one poll body as in main.py lines 240-255. -/
def extractNames (data : Option JValue) : List JValue :=
  match data with
  | some (JValue.arr items) => namesOfList items
  | some (JValue.obj kvs) =>
    (["models", "results", "items"]).foldl (fun acc k =>
      match jgetD kvs k with
      | JValue.arr items => acc ++ namesOfList items
      | _ => acc) []
  | _ => []

/-- Does one poll satisfy `status == 200 and OLLAMA_MODEL in names` (main.py
lines 235-256)? Python `in` on a list compares with `==`, and a string equals
only an equal string, so this is exact membership. -/
def watcherCheck (model : String) (p : PollResp) : Bool :=
  match p with
  | PollResp.err _ => false
  | PollResp.resp status body =>
    if status == 200 then
      (extractNames body).any (fun v =>
        match v with
        | JValue.str s => s == model
        | _ => false)
    else false

/-- The `model_watcher` polling loop (main.py lines 224-277) run over a list
of poll outcomes. Returns the trace of `MODEL_READY` observed after each
executed iteration and the final `MODEL_READY`. The only assignment sets it
to `True` and is immediately followed by `break`, so a `true` entry ends the
trace; the backoff sleeps between iterations do not touch the flag. -/
def watcherRun (model : String) : List PollResp → List Bool × Bool
  | [] => ([], false)
  | p :: ps =>
    if watcherCheck model p then ([true], true)
    else
      let r := watcherRun model ps
      (false :: r.1, r.2)

/-- The model watcher with the configured model identifier (`OLLAMA_MODEL`). -/
def model_watcher (model : String) (polls : List PollResp) : List Bool × Bool :=
  watcherRun model polls

/-- Index of the first occurrence of the `"\n\n"` delimiter. -/
def findDelim : List Char → Option Nat
  | [] => none
  | c :: rest =>
    match rest with
    | [] => none
    | c2 :: _ =>
      if c == '\n' && c2 == '\n' then some 0
      else (findDelim rest).map (fun i => i + 1)

/-- The inner `while "\n\n" in buf` loop of `event_generator` (ui-service
main.py lines 99-109), fuelled: emit `buf[:idx+2]` and keep `buf[idx+2:]`
while the delimiter is present. The fuel only needs to exceed the number of
delimiter occurrences; callers pass the buffer length. -/
def splitLoopF : Nat → List Char → List (List Char) × List Char
  | 0, l => ([], l)
  | n + 1, l =>
    match findDelim l with
    | none => ([], l)
    | some i =>
      let p := splitLoopF n (l.drop (i + 2))
      (l.take (i + 2) :: p.1, p.2)

/-- Processing of one upstream chunk (ui-service main.py lines 90-109): empty
chunks are skipped, others are appended to the buffer which is then drained
of complete frames. -/
def genStep (st : List (List Char) × List Char) (chunk : String) :
    List (List Char) × List Char :=
  if chunk = "" then st
  else
    let buf := st.2 ++ chunk.data
    let p := splitLoopF buf.length buf
    (st.1 ++ p.1, p.2)

/-- The SSE reassembler `event_generator` (ui-service main.py lines 86-122)
run over the list of chunks the upstream yielded before closing: the emitted
frames, with the non-empty final buffer flushed once at end of stream. -/
def event_generator (chunks : List String) : List String :=
  let fin := chunks.foldl genStep ([], [])
  ((fin.1 ++ if fin.2 = [] then [] else [fin.2]).map (fun l => String.mk l))

/-- Concatenation of a list of lists (used to state stream conservation). -/
def catList : List (List Char) → List Char
  | [] => []
  | l :: rest => l ++ catList rest

/-- The answer-text chain yields a string or a falsy value; with this, and
only with this, a fallback to `keyword_score` cannot raise. -/
def answerOk (kvs : List (String × JValue)) : Bool :=
  match answerVal kvs with
  | JValue.str _ => true
  | v => !pyTruthy v

/-- Message bodies for which the handler body cannot raise: undecodable
bodies (logged and dropped) and JSON objects with a safe answer field. -/
def bodySafe : Option JValue → Bool
  | none => true
  | some (JValue.obj kvs) => answerOk kvs
  | some _ => false

/-- The scenario payload of the end-to-end keyword-fallback test:
`json.loads` of the event body with `Id` 42 and the pressure answer. -/
def payload42 : JValue :=
  JValue.obj [("Id", JValue.str "42"), ("AnswerText", JValue.str "apply direct pressure")]

/-- The backend body of the embedded-object scenario. -/
def embeddedBody : String :=
  "Sure! \x7b\"score\": 85, \"feedback\": \"Good\"\x7d Hope that helps."

instance {ε α : Type} [DecidableEq ε] [DecidableEq α] : DecidableEq (Except ε α) :=
  fun a b =>
    match a, b with
    | Except.ok x, Except.ok y =>
      if h : x = y then isTrue (by rw [h]) else isFalse (fun c => h (Except.ok.inj c))
    | Except.error x, Except.error y =>
      if h : x = y then isTrue (by rw [h]) else isFalse (fun c => h (Except.error.inj c))
    | Except.ok _, Except.error _ => isFalse (fun c => Except.noConfusion c)
    | Except.error _, Except.ok _ => isFalse (fun c => Except.noConfusion c)

/-- A character list without decimal digits has no digit runs. -/
theorem digitRunsF_nil (n : Nat) :
    ∀ l : List Char, (∀ c ∈ l, c.isDigit = false) → digitRunsF n l = [] := by
  induction n with
  | zero => intro l _; rfl
  | succ n ih =>
    intro l hl
    cases l with
    | nil => rfl
    | cons c rest =>
      have hc : c.isDigit = false := hl c (List.mem_cons_self c rest)
      simp only [digitRunsF, hc, Bool.false_eq_true, if_false]
      exact ih rest (fun d hd => hl d (List.mem_cons_of_mem c hd))

/-- C1: the claim that the interpreter is total and returns `(0, trimmed
input)` when no structured value and no integer is present is false on the
code: for such inputs the interpreter raises `ValueError` (the `ask_llama`
caller catches it as "scoring failed"). This theorem proves the amended
claim: whenever the whole-text JSON parse does not produce a dict and the
text contains no digit at all, `interpret` raises. -/
theorem interpret_no_value (text : String)
    (hdict : jsonDictOf (pyLoads text) = none)
    (hdig : text.data.all (fun c => !c.isDigit) = true) :
    interpret text = Except.error "No integer score found in Ollama response" := by
  have h1 : step1 text = none := by
    unfold step1
    rw [hdict]
  have h2 : firstInt13 text = none := by
    unfold firstInt13 digitRuns
    rw [digitRunsF_nil]
    · rfl
    · intro c hc
      have := List.all_eq_true.mp hdig c hc
      simpa using this
  unfold interpret
  rw [h1, h2]

/-- Witness for C1 at the input `"hello"`. -/
theorem interpret_no_value_witness :
    (jsonDictOf (pyLoads "hello") = none
      ∧ ("hello").data.all (fun c => !c.isDigit) = true)
    ∧ interpret "hello" = Except.error "No integer score found in Ollama response" :=
  ⟨⟨rfl, by decide⟩, interpret_no_value "hello" rfl (by decide)⟩

/-- Counterexample for C1 as stated: on the input `"hello"` (no structured
value, no integer literal) the interpreter does not return `(0, "hello")`;
it raises `ValueError("No integer score found in Ollama response")`. -/
theorem interpret_total_cex :
    interpret "hello" = Except.error "No integer score found in Ollama response" := by
  decide

/-- C2 (amended): the interpreter has no embedded-object extraction strategy.
When the whole-text JSON parse yields no dict and the first maximal digit run
is at most 3 digits long, the integer-scan fallback fires: the run's value is
clamped to [0,100] and the feedback is the whole stripped text. -/
theorem interpret_int_scan (text : String) (v : Nat)
    (hdict : jsonDictOf (pyLoads text) = none)
    (hint : firstInt13 text = some v) :
    interpret text = Except.ok (max 0 (min 100 (v : Int)), pyStrip text) := by
  have h1 : step1 text = none := by
    unfold step1
    rw [hdict]
  unfold interpret
  rw [h1, hint]

/-- Witness for C2 at the embedded-object scenario body. -/
theorem interpret_int_scan_witness :
    (jsonDictOf (pyLoads embeddedBody) = none ∧ firstInt13 embeddedBody = some 85)
    ∧ interpret embeddedBody = Except.ok (max 0 (min 100 ((85 : Nat) : Int)), pyStrip embeddedBody) :=
  ⟨⟨rfl, rfl⟩, interpret_int_scan embeddedBody 85 rfl rfl⟩

/-- Counterexample for C2 as stated: for the backend body
`Sure! {"score": 85, "feedback": "Good"} Hope that helps.` the interpreter
returns the whole body as feedback, not `"Good"` — the embedded object is
never parsed; `85` comes from the integer scan. -/
theorem interpret_embedded_cex :
    interpret embeddedBody = Except.ok (85, embeddedBody) ∧ embeddedBody ≠ "Good" := by
  constructor
  · decide
  · decide

/-- C8 (amended): the envelope scan of `ask_llama` checks the keys `output`,
`generated_text`, `text`, `result`, `message` (and then `results`/`choices`);
it does not check `response`. A nonblank `output` string is handed to the
interpreter as is; a body `{"response": T}` falls through to
`json.dumps` of the whole envelope; and when the body does not parse as JSON
at all, `resp.json()` raises, so `ask_llama` fails and the interpreter
receives nothing (the caller falls back to the keyword heuristic). -/
theorem ask_llama_envelope (s body : String)
    (h1 : pyStrip s ≠ "") (h2 : pyLoads body = none) :
    extractText (JValue.obj [("output", JValue.str s)]) = s
    ∧ extractText (JValue.obj [("response", JValue.str s)])
        = dumps (JValue.obj [("response", JValue.str s)])
    ∧ ask_llama true (HttpOutcome.resp 200 body) = Except.error "JSONDecodeError" := by
  refine ⟨?_, rfl, ?_⟩
  · have e1 : firstKeyHit [("output", JValue.str s)]
        ["output", "generated_text", "text", "result", "message"] = some s := by
      show (if pyStrip s = "" then
          firstKeyHit [("output", JValue.str s)] ["generated_text", "text", "result", "message"]
        else some s) = some s
      rw [if_neg h1]
    show (match firstKeyHit [("output", JValue.str s)]
        ["output", "generated_text", "text", "result", "message"] with
      | some t => t
      | none =>
        match pyOr (jgetD [("output", JValue.str s)] "results")
            (jgetD [("output", JValue.str s)] "choices") with
        | JValue.arr (first :: _) =>
          match first with
          | JValue.obj fkvs =>
            match nestedKeyHit fkvs ["content", "text", "message", "output"] with
            | some t => t
            | none => dumps (JValue.obj [("output", JValue.str s)])
          | _ => dumps (JValue.obj [("output", JValue.str s)])
        | _ => dumps (JValue.obj [("output", JValue.str s)])) = s
    rw [e1]
  · have e3 : ask_llama true (HttpOutcome.resp 200 body)
        = (match pyLoads body with
           | none => Except.error "JSONDecodeError"
           | some data => interpret (extractText data)) := rfl
    rw [e3, h2]

/-- Witness for C8 at `s = "T"` and the unparseable body `"Sure!"`. -/
theorem ask_llama_envelope_witness :
    (pyStrip "T" ≠ "" ∧ pyLoads "Sure!" = none)
    ∧ (extractText (JValue.obj [("output", JValue.str "T")]) = "T"
       ∧ extractText (JValue.obj [("response", JValue.str "T")])
           = dumps (JValue.obj [("response", JValue.str "T")])
       ∧ ask_llama true (HttpOutcome.resp 200 "Sure!") = Except.error "JSONDecodeError") :=
  ⟨⟨by decide, rfl⟩, ask_llama_envelope "T" "Sure!" (by decide) rfl⟩

/-- Counterexample for C8 as stated: for the parsed body `{"response": "T"}`
the text handed to the interpreter is not `"T"` (it is the serialized full
envelope), because the envelope scan never looks at the `response` key. -/
theorem ask_llama_response_key_cex :
    extractText (JValue.obj [("response", JValue.str "T")]) ≠ "T" := by
  decide

/-- The keyword scorer cannot raise on a string argument. -/
theorem keyword_score_str (s : String) : ∃ n, keyword_score (JValue.str s) = Except.ok n := by
  unfold keyword_score pyOr
  by_cases hpt : pyTruthy (JValue.str s) = true
  · rw [if_pos hpt]
    exact ⟨_, rfl⟩
  · rw [if_neg hpt]
    exact ⟨_, rfl⟩

/-- The keyword scorer cannot raise on a falsy argument (`v or ""` is `""`). -/
theorem keyword_score_falsy (v : JValue) (hv : pyTruthy v = false) :
    ∃ n, keyword_score v = Except.ok n := by
  unfold keyword_score pyOr
  rw [if_neg (by simp [hv])]
  exact ⟨_, rfl⟩

/-- With a safe answer field, the score step of the handler cannot raise:
either `ask_llama` succeeds or the keyword fallback supplies the result. -/
theorem scoreOf_ok (kvs : List (String × JValue)) (ready : Bool) (h : HttpOutcome)
    (hk : answerOk kvs = true) : ∃ sf, scoreOf kvs ready h = Except.ok sf := by
  unfold scoreOf
  cases hask : ask_llama ready h with
  | ok sf => exact ⟨sf, rfl⟩
  | error e =>
    unfold answerOk at hk
    have hkw : ∃ n, keyword_score (answerVal kvs) = Except.ok n := by
      cases hv : answerVal kvs with
      | str s => exact keyword_score_str s
      | null =>
        rw [hv] at hk
        exact keyword_score_falsy _ (by simpa using hk)
      | bool b =>
        rw [hv] at hk
        exact keyword_score_falsy _ (by simpa using hk)
      | num n =>
        rw [hv] at hk
        exact keyword_score_falsy _ (by simpa using hk)
      | arr xs =>
        rw [hv] at hk
        exact keyword_score_falsy _ (by simpa using hk)
      | obj fkvs =>
        rw [hv] at hk
        exact keyword_score_falsy _ (by simpa using hk)
    obtain ⟨n, hn⟩ := hkw
    rw [hn]
    exact ⟨_, rfl⟩

/-- With a safe body, the handler body completes without an exception. -/
theorem handlerBody_ok (payload? : Option JValue) (ready : Bool) (h : HttpOutcome)
    (del : DeliveryOutcome) (hs : bodySafe payload? = true) :
    ∃ r, handlerBody payload? ready h del = Except.ok r := by
  cases payload? with
  | none => exact ⟨⟨none, [], false⟩, rfl⟩
  | some payload =>
    cases payload with
    | obj kvs =>
      have hk : answerOk kvs = true := by simpa [bodySafe] using hs
      obtain ⟨⟨score, feedback⟩, hsf⟩ := scoreOf_ok kvs ready h hk
      simp only [handlerBody, hsf]
      split
      · cases del with
        | exc m => exact ⟨_, rfl⟩
        | status c => exact ⟨_, rfl⟩
      · exact ⟨_, rfl⟩
    | null => simp [bodySafe] at hs
    | bool b => simp [bodySafe] at hs
    | num n => simp [bodySafe] at hs
    | str s => simp [bodySafe] at hs
    | arr xs => simp [bodySafe] at hs

/-- C5 (amended): for every delivered message whose body either fails to
decode (logged, dropped) or decodes to a JSON object whose answer-text chain
yields a string or a falsy value, `process_message` acknowledges exactly once
and lets no exception escape, whatever the scoring backend and the gateway
delivery do; an undecodable body is acknowledged and dropped with no scoring
attempt. (The unamended universal claim fails for bodies decoding to
non-object JSON, see the counterexample.) -/
theorem process_message_ack (payload? : Option JValue) (ready : Bool)
    (h : HttpOutcome) (del : DeliveryOutcome) (hs : bodySafe payload? = true) :
    (process_message payload? ready h del).acks = 1
    ∧ (process_message payload? ready h del).raised = false
    ∧ (payload? = none →
        (process_message payload? ready h del).result = some ⟨none, [], false⟩) := by
  obtain ⟨r, hr⟩ := handlerBody_ok payload? ready h del hs
  unfold process_message
  rw [hr]
  refine ⟨rfl, rfl, ?_⟩
  intro hnone
  subst hnone
  have h0 : handlerBody none ready h del = Except.ok ⟨none, [], false⟩ := rfl
  rw [h0] at hr
  rw [(Except.ok.inj hr).symm]

/-- Witness for C5: a decodable event with `Id` 7 while the backend is down
and the gateway POST raises. -/
theorem process_message_ack_witness :
    (bodySafe (some (JValue.obj [("Id", JValue.str "7"), ("AnswerText", JValue.str "x")])) = true)
    ∧ ((process_message (some (JValue.obj [("Id", JValue.str "7"), ("AnswerText", JValue.str "x")]))
          false (HttpOutcome.exc "down") (DeliveryOutcome.exc "gateway down")).acks = 1
       ∧ (process_message (some (JValue.obj [("Id", JValue.str "7"), ("AnswerText", JValue.str "x")]))
          false (HttpOutcome.exc "down") (DeliveryOutcome.exc "gateway down")).raised = false
       ∧ ((some (JValue.obj [("Id", JValue.str "7"), ("AnswerText", JValue.str "x")]) :
            Option JValue) = none →
          (process_message (some (JValue.obj [("Id", JValue.str "7"), ("AnswerText", JValue.str "x")]))
          false (HttpOutcome.exc "down") (DeliveryOutcome.exc "gateway down")).result
            = some ⟨none, [], false⟩)) :=
  ⟨by decide,
   process_message_ack (some (JValue.obj [("Id", JValue.str "7"), ("AnswerText", JValue.str "x")]))
     false (HttpOutcome.exc "down") (DeliveryOutcome.exc "gateway down") (by decide)⟩

/-- Counterexample for C5 as stated: the broker body `"[1]"` decodes as valid
JSON but not as an object, so `payload.get("AnswerText")` raises
`AttributeError`; `message.process()` then rejects instead of acknowledging
and re-raises — the message is not acked and the exception escapes. -/
theorem process_message_nonobject_cex :
    (process_message (some (JValue.arr [JValue.num 1])) false (HttpOutcome.exc "down")
       (DeliveryOutcome.status 200)).acks = 0
    ∧ (process_message (some (JValue.arr [JValue.num 1])) false (HttpOutcome.exc "down")
       (DeliveryOutcome.status 200)).raised = true :=
  ⟨rfl, rfl⟩

/-- C9 (amended): the keyword heuristic scores 100 exactly when the answer
contains "tourniquet" or "pressure" case-insensitively, and for the event
`{"Id":"42","AnswerText":"apply direct pressure"}` with the backend down the
handler acknowledges once and attempts exactly one delivery POST to
`/tactical/quiz/42/review` with ScoreResult `(100, "Keywords matched")` —
the fixed feedback strings are `"Keywords matched"`/`"No keywords matched"`,
not `"matched"`/`"no match"`. -/
theorem process_message_fallback (s : String) :
    (keyword_score (JValue.str s) = Except.ok 100
      ↔ (strContains (pyLower s) "tourniquet" = true
         ∨ strContains (pyLower s) "pressure" = true))
    ∧ process_message (some payload42) false (HttpOutcome.exc "conn refused")
        (DeliveryOutcome.status 200)
      = ⟨1, false, false,
         some ⟨some (100, "Keywords matched"),
               ["http://api-gateway/tactical/quiz/42/review"], false⟩⟩ := by
  have hks : keyword_score (JValue.str s)
      = Except.ok (if strContains (pyLower s) "tourniquet"
          || strContains (pyLower s) "pressure" then 100 else 0) := by
    unfold keyword_score pyOr
    by_cases hpt : pyTruthy (JValue.str s) = true
    · rw [if_pos hpt]
    · rw [if_neg hpt]
      have hs0 : s = "" := by
        unfold pyTruthy at hpt
        simpa using hpt
      subst hs0
      rfl
  constructor
  · rw [hks]
    cases hc1 : strContains (pyLower s) "tourniquet" <;>
      cases hc2 : strContains (pyLower s) "pressure" <;> simp
  · decide

/-- Counterexample for C9 as stated: with the backend down, the scenario
event's ScoreResult feedback is `"Keywords matched"`, not `"matched"`. -/
theorem process_message_feedback_cex :
    ((process_message (some payload42) false (HttpOutcome.exc "conn refused")
        (DeliveryOutcome.status 200)).result.map HandlerResult.scored)
      = some (some (100, "Keywords matched"))
    ∧ ((process_message (some payload42) false (HttpOutcome.exc "conn refused")
        (DeliveryOutcome.status 200)).result.map HandlerResult.scored)
      ≠ some (some (100, "matched")) := by
  exact ⟨by decide, by decide⟩

/-- The i-th emitted wait of the consumer loop started at counter `a` is
`min 30 (2 ^ (a + i + 1))`. -/
theorem consumerRun_getD (outs : List Bool) :
    ∀ (a i : Nat), i < (consumerRun outs a).1.length →
      (consumerRun outs a).1.getD i 0 = min 30 (2 ^ (a + i + 1)) := by
  induction outs with
  | nil =>
    intro a i h
    simp [consumerRun] at h
  | cons ok rest ih =>
    intro a i h
    cases ok with
    | true => simp [consumerRun] at h
    | false =>
      cases i with
      | zero => simp [consumerRun]
      | succ j =>
        have h2 : j < (consumerRun rest (a + 1)).1.length := by
          simp [consumerRun] at h
          omega
        have hj := ih (a + 1) j h2
        show (min 30 (2 ^ (a + 1)) :: (consumerRun rest (a + 1)).1).getD (j + 1) 0
          = min 30 (2 ^ (a + (j + 1) + 1))
        rw [List.getD_cons_succ, hj]
        congr 2
        omega

/-- C3 (amended): the wait after the k-th consecutive failed connection
attempt (0-indexed here: the i-th emitted wait) is `min 30 (2 ^ (i + 1))`
seconds, so the sequence is monotonically non-decreasing and capped at 30.
After a successful connect-and-bind the loop blocks forever on
`asyncio.Event().wait()`; the attempt counter is never reset to 0 (see the
counterexample), but no further wait is ever emitted after a success. -/
theorem start_consumer_backoff (outs : List Bool) (i j : Nat)
    (hi : i < (start_consumer outs).1.length) (hj : j < (start_consumer outs).1.length)
    (hij : i ≤ j) :
    (start_consumer outs).1.getD i 0 = min 30 (2 ^ (i + 1))
    ∧ (start_consumer outs).1.getD i 0 ≤ (start_consumer outs).1.getD j 0
    ∧ (start_consumer outs).1.getD i 0 ≤ 30 := by
  have gi := consumerRun_getD outs 0 i hi
  have gj := consumerRun_getD outs 0 j hj
  rw [show (0 + i + 1) = i + 1 by omega] at gi
  rw [show (0 + j + 1) = j + 1 by omega] at gj
  unfold start_consumer
  refine ⟨gi, ?_, ?_⟩
  · rw [gi, gj]
    exact min_le_min (le_refl 30) (Nat.pow_le_pow_right (by norm_num) (by omega))
  · rw [gi]
    exact min_le_left _ _

/-- Witness for C3: six straight failures, waits at indices 2 and 5. -/
theorem start_consumer_backoff_witness :
    (2 < (start_consumer [false, false, false, false, false, false]).1.length
     ∧ 5 < (start_consumer [false, false, false, false, false, false]).1.length
     ∧ 2 ≤ 5)
    ∧ ((start_consumer [false, false, false, false, false, false]).1.getD 2 0
          = min 30 (2 ^ (2 + 1))
       ∧ (start_consumer [false, false, false, false, false, false]).1.getD 2 0
          ≤ (start_consumer [false, false, false, false, false, false]).1.getD 5 0
       ∧ (start_consumer [false, false, false, false, false, false]).1.getD 2 0 ≤ 30) :=
  ⟨⟨by decide, by decide, by decide⟩,
   start_consumer_backoff [false, false, false, false, false, false] 2 5
     (by decide) (by decide) (by decide)⟩

/-- Counterexample for C3 as stated: after one failure followed by a
successful connect-and-bind, the attempt counter is 1, not 0 — the source
has no statement resetting it (the loop merely blocks after success). -/
theorem start_consumer_reset_cex : (start_consumer [false, true]).2 ≠ 0 := by
  decide

/-- C4: the readiness flag transitions at most once per run, from `False` to
`True`, and never reverts: the trace of `MODEL_READY` over the watcher loop
is some `False`s optionally followed by one final `True`, after which the
loop has terminated (one-shot gate — no entries follow the `True`). -/
theorem model_watcher_one_shot (model : String) (polls : List PollResp) :
    ∃ k, (model_watcher model polls).1 = List.replicate k false
       ∨ (model_watcher model polls).1 = List.replicate k false ++ [true] := by
  unfold model_watcher
  induction polls with
  | nil => exact ⟨0, Or.inl rfl⟩
  | cons p ps ih =>
    cases hc : watcherCheck model p
    · obtain ⟨k, hk | hk⟩ := ih
      · exact ⟨k + 1, Or.inl (by simp [watcherRun, hc, hk, List.replicate_succ])⟩
      · exact ⟨k + 1, Or.inr (by simp [watcherRun, hc, hk, List.replicate_succ])⟩
    · exact ⟨0, Or.inr (by simp [watcherRun, hc])⟩

/-- C7 (amended): the readiness gate ends Ready exactly when some executed
poll returns HTTP 200 with the configured identifier exactly equal to one of
the extracted names — there is no substring fallback (see counterexample). -/
theorem model_watcher_exact_match (model : String) (polls : List PollResp) :
    (model_watcher model polls).2 = true ↔ ∃ p ∈ polls, watcherCheck model p = true := by
  unfold model_watcher
  induction polls with
  | nil => simp [watcherRun]
  | cons p ps ih =>
    cases hc : watcherCheck model p
    · simp [watcherRun, hc, ih]
    · simp [watcherRun, hc]

/-- Counterexample for C7 as stated: the configured identifier `llama3` is a
substring of the listed name `llama3:latest` (shown by the explicit
decomposition), yet the poll leaves the gate NotReady, because the code
checks exact list membership only. -/
theorem model_watcher_no_substring_cex :
    "llama3:latest" = "llama3" ++ ":latest"
    ∧ model_watcher "llama3"
        [PollResp.resp 200 (some (JValue.arr [JValue.str "llama3:latest"]))]
      = ([false], false) := by
  exact ⟨by decide, by decide⟩

/-- Concatenation distributes over list append. -/
theorem catList_append (A B : List (List Char)) :
    catList (A ++ B) = catList A ++ catList B := by
  induction A with
  | nil => rfl
  | cons a t ih => simp [catList, ih, List.append_assoc]

/-- The frame-splitting loop loses no characters: frames plus remainder
reassemble the buffer, for any fuel. -/
theorem splitLoopF_join : ∀ (n : Nat) (l : List Char),
    catList (splitLoopF n l).1 ++ (splitLoopF n l).2 = l := by
  intro n
  induction n with
  | zero => intro l; simp [splitLoopF, catList]
  | succ n ih =>
    intro l
    cases hf : findDelim l with
    | none => simp [splitLoopF, hf, catList]
    | some i =>
      simp only [splitLoopF, hf, catList]
      rw [List.append_assoc, ih, List.take_append_drop]

/-- The prefix up to and including the first delimiter ends with the
delimiter. -/
theorem findDelim_take : ∀ (l : List Char) (i : Nat), findDelim l = some i →
    l.take (i + 2) = l.take i ++ ['\n', '\n'] := by
  intro l
  induction l with
  | nil => intro i h; simp [findDelim] at h
  | cons c rest ih =>
    intro i h
    cases rest with
    | nil => simp [findDelim] at h
    | cons c2 t =>
      simp only [findDelim] at h
      by_cases hb : (c == '\n' && c2 == '\n') = true
      · rw [if_pos hb] at h
        have hi : i = 0 := (Option.some.inj h).symm
        subst hi
        have hc : c = '\n' := eq_of_beq ((Bool.and_eq_true _ _).mp hb).1
        have hc2 : c2 = '\n' := eq_of_beq ((Bool.and_eq_true _ _).mp hb).2
        subst hc
        subst hc2
        rfl
      · rw [if_neg hb] at h
        obtain ⟨j, hj, hij⟩ := Option.map_eq_some'.mp h
        subst hij
        have ht := ih j hj
        have e1 : (c :: c2 :: t).take (j + 1 + 2) = c :: (c2 :: t).take (j + 2) := rfl
        have e2 : (c :: c2 :: t).take (j + 1) = c :: (c2 :: t).take j := rfl
        rw [e1, e2, ht]
        simp

/-- Every frame emitted by the splitting loop ends with the delimiter. -/
theorem splitLoopF_frames : ∀ (n : Nat) (l f : List Char),
    f ∈ (splitLoopF n l).1 → ∃ g, f = g ++ ['\n', '\n'] := by
  intro n
  induction n with
  | zero => intro l f hf; simp [splitLoopF] at hf
  | succ n ih =>
    intro l f hf
    cases hd : findDelim l with
    | none => simp [splitLoopF, hd] at hf
    | some i =>
      simp only [splitLoopF, hd, List.mem_cons] at hf
      cases hf with
      | inl h =>
        refine ⟨l.take i, ?_⟩
        rw [h]
        exact findDelim_take l i hd
      | inr h => exact ih _ f h

/-- One chunk-feeding step conserves the characters seen so far. -/
theorem genStep_join (st : List (List Char) × List Char) (c : String) :
    catList (genStep st c).1 ++ (genStep st c).2 = catList st.1 ++ st.2 ++ c.data := by
  unfold genStep
  by_cases hc : c = ""
  · rw [if_pos hc, hc]
    have hce : ("" : String).data = [] := rfl
    rw [hce, List.append_nil]
  · rw [if_neg hc]
    show catList (st.1 ++ (splitLoopF (st.2 ++ c.data).length (st.2 ++ c.data)).1)
        ++ (splitLoopF (st.2 ++ c.data).length (st.2 ++ c.data)).2
      = catList st.1 ++ st.2 ++ c.data
    rw [catList_append, List.append_assoc, splitLoopF_join]
    rw [List.append_assoc]

/-- The chunk fold conserves all characters of the consumed chunks. -/
theorem foldl_genStep_join : ∀ (chunks : List String) (st : List (List Char) × List Char),
    catList (chunks.foldl genStep st).1 ++ (chunks.foldl genStep st).2
      = catList st.1 ++ st.2 ++ catList (chunks.map String.data) := by
  intro chunks
  induction chunks with
  | nil => intro st; simp [catList]
  | cons c cs ih =>
    intro st
    rw [List.foldl_cons, ih (genStep st c), genStep_join]
    simp [catList, List.append_assoc]

/-- C10: the concatenation of all frames emitted by `event_generator`
(including the final flush) equals the concatenation of the upstream chunks —
the reassembly drops, duplicates and reorders nothing. -/
theorem event_generator_conserves (chunks : List String) :
    catList ((event_generator chunks).map String.data) = catList (chunks.map String.data) := by
  have hmk : ∀ (L : List (List Char)), (L.map (fun l => String.mk l)).map String.data = L := by
    intro L
    induction L with
    | nil => rfl
    | cons a t iht =>
      simp only [List.map_cons]
      rw [iht]
  show catList ((((chunks.foldl genStep ([], [])).1
      ++ if (chunks.foldl genStep ([], [])).2 = []
         then [] else [(chunks.foldl genStep ([], [])).2]).map
        (fun l => String.mk l)).map String.data) = catList (chunks.map String.data)
  rw [hmk, catList_append]
  have h := foldl_genStep_join chunks ([], [])
  simp only [catList, List.append_nil, List.nil_append] at h
  by_cases hf : (chunks.foldl genStep ([], [])).2 = []
  · rw [if_pos hf]
    simp only [catList, List.append_nil]
    rw [← h, hf, List.append_nil]
  · rw [if_neg hf]
    simp only [catList, List.append_nil]
    exact h

/-- One chunk-feeding step emits only delimiter-terminated frames. -/
theorem genStep_frames (st : List (List Char) × List Char) (c : String)
    (hst : ∀ l ∈ st.1, ∃ g, l = g ++ ['\n', '\n']) :
    ∀ l ∈ (genStep st c).1, ∃ g, l = g ++ ['\n', '\n'] := by
  intro l hl
  unfold genStep at hl
  by_cases hc : c = ""
  · rw [if_pos hc] at hl
    exact hst l hl
  · rw [if_neg hc] at hl
    rcases List.mem_append.mp hl with h | h
    · exact hst l h
    · exact splitLoopF_frames _ _ l h

/-- The chunk fold emits only delimiter-terminated frames. -/
theorem foldl_genStep_frames : ∀ (cs : List String) (st : List (List Char) × List Char),
    (∀ l ∈ st.1, ∃ g, l = g ++ ['\n', '\n']) →
    ∀ l ∈ (cs.foldl genStep st).1, ∃ g, l = g ++ ['\n', '\n'] := by
  intro cs
  induction cs with
  | nil => intro st hst; exact hst
  | cons c t ih =>
    intro st hst
    rw [List.foldl_cons]
    exact ih (genStep st c) (genStep_frames st c hst)

/-- C6: for the upstream chunks `["ab", "c\n", "\nd"]` the reassembler emits
exactly the complete frame `"abc\n\n"` followed by the final flush `"d"` of
the non-empty remainder at end of stream; and in every run, each emitted
frame except possibly the last (the flush) ends with the `"\n\n"`
delimiter — only complete delimiter-terminated events are forwarded before
the flush. -/
theorem event_generator_frames :
    event_generator ["ab", "c\n", "\nd"] = ["abc\n\n", "d"]
    ∧ ∀ (chunks : List String) (f : String),
        f ∈ (event_generator chunks).dropLast → ∃ g, f = String.mk (g ++ ['\n', '\n']) := by
  constructor
  · decide
  · intro chunks f hf
    have hall := foldl_genStep_frames chunks ([], []) (by intro l hl; simp at hl)
    simp only [event_generator] at hf
    by_cases hopt : (chunks.foldl genStep ([], [])).2 = []
    · rw [if_pos hopt, List.append_nil] at hf
      have hf2 : f ∈ ((chunks.foldl genStep ([], [])).1.map (fun l => String.mk l)) :=
        (List.dropLast_sublist _).subset hf
      obtain ⟨l, hl, hfl⟩ := List.mem_map.mp hf2
      obtain ⟨g, hg⟩ := hall l hl
      exact ⟨g, by rw [← hfl, hg]⟩
    · rw [if_neg hopt, List.map_append] at hf
      rw [show ([(chunks.foldl genStep ([], [])).2].map (fun l => String.mk l))
          = [String.mk (chunks.foldl genStep ([], [])).2] from rfl] at hf
      rw [List.dropLast_concat] at hf
      obtain ⟨l, hl, hfl⟩ := List.mem_map.mp hf
      obtain ⟨g, hg⟩ := hall l hl
      exact ⟨g, by rw [← hfl, hg]⟩

/-- Witness for C6: the frame `"abc\n\n"` of the concrete run is a
delimiter-terminated non-final frame. -/
theorem event_generator_frames_witness :
    ("abc\n\n" ∈ (event_generator ["ab", "c\n", "\nd"]).dropLast)
    ∧ ∃ g, "abc\n\n" = String.mk (g ++ ['\n', '\n']) :=
  ⟨by decide, event_generator_frames.2 ["ab", "c\n", "\nd"] "abc\n\n" (by decide)⟩
